import Mathlib

/-!
Shallow embedding of the goscrub data-masking tool (main.go) and proofs about
its specification claims.

The program rewrites zip-structured document containers (OpenXML, OpenDocument)
dropping metadata entries, re-encodes images, and commits results through a
backup-then-replace protocol.  File-system effects are modelled by an explicit
`World` state carrying the file map plus failure oracles for the fallible
primitives (`copyFile`, `os.Rename`, `os.Create`, decode/encode); pure logic
(entry filtering, classification, counting) is modelled by pure functions
translated line by line from the source.
-/

/-- Byte strings are modelled as lists of naturals. -/
abbrev Bytes := List Nat

/-- Lowercasing as in Go's `strings.ToLower` (per-character lowering). -/
def lowerStr (s : String) : String := String.mk (s.data.map Char.toLower)

/-- Go's `strings.HasPrefix s pre`: the first `pre.length` characters of `s`
equal `pre`. -/
def strStartsWith (s pre : String) : Bool := s.data.take pre.data.length == pre.data

/-- Go's `strings.TrimPrefix ext "."` as used by `trimDot` (main.go:401-403):
drop one leading dot when present. -/
def trimDot (ext : String) : String :=
  match ext.data with
  | '.' :: rest => String.mk rest
  | _ => ext

/-- Helper for `fileExt`: scan the path from its end; the first dot found
before a path separator starts the extension (`acc` holds the characters seen
so far, in original order). -/
def extAux : List Char → List Char → String
  | [], _ => ""
  | c :: rest, acc =>
    if c = '.' then String.mk ('.' :: acc)
    else if c = '/' then ""
    else extAux rest (c :: acc)

/-- Go's `filepath.Ext`: the suffix beginning at the final dot in the final
path element, empty when there is none (separator modelled as `/`). -/
def fileExt (p : String) : String := extAux p.data.reverse []

/-- Keep predicate of `scrubOpenXML` (main.go:188-197): drop every entry whose
lowercased name starts with `docprops/`, keep everything else. -/
def scrubOpenXMLKeep (name : String) : Bool :=
  if strStartsWith (lowerStr name) "docprops/" then false
  else true

/-- Keep predicate of `scrubOpenDocument` (main.go:200-208): drop exactly the
entry whose lowercased name is `meta.xml`, keep everything else. -/
def scrubOpenDocumentKeep (name : String) : Bool :=
  if lowerStr name == "meta.xml" then false
  else true

/-- Compression codec abstraction: Go's `archive/zip` decompresses an entry
stream (`zf.Open`) and compresses what is written through a header writer
(`zw.CreateHeader` + `io.Copy`), both determined by the declared method. -/
structure Codec where
  compress : Nat → Bytes → Bytes
  decompress : Nat → Bytes → Bytes

/-- One zip central-directory entry: name, declared compression method,
file-mode bits, modification timestamp, and the stored (compressed) payload. -/
structure ZipEntry where
  name : String
  method : Nat
  mode : Nat
  modified : Nat
  raw : Bytes
deriving DecidableEq, Repr

/-- Entry loop of `rewriteZip` (main.go:281-314): iterate the source entries in
central-directory order; skip an entry when `keep` rejects its name; otherwise
emit an entry with the same name, method, mode and modification time whose
payload is the source payload decompressed (`zf.Open`) and compressed again
(`zw.CreateHeader` with the same declared method, then `io.Copy`). -/
def rewriteZipEntries (c : Codec) (keep : String → Bool) : List ZipEntry → List ZipEntry
  | [] => []
  | e :: rest =>
    if keep e.name then
      { name := e.name, method := e.method, mode := e.mode, modified := e.modified,
        raw := c.compress e.method (c.decompress e.method e.raw) }
        :: rewriteZipEntries c keep rest
    else rewriteZipEntries c keep rest

/-- Observable view of an entry: name, method, mode, modification time and
decompressed content. -/
def entryView (c : Codec) (e : ZipEntry) : String × Nat × Nat × Nat × Bytes :=
  (e.name, e.method, e.mode, e.modified, c.decompress e.method e.raw)

/-- Outcome oracle for one `copyFile src dst` call (main.go:360-373): success,
failure before `dst` is touched (`os.Open`/`os.Create` failed), or failure
after a prefix `p` was written to `dst` (`io.Copy` failed midway). -/
inductive CopyRes
  | ok
  | failNoWrite
  | failPart (p : Bytes)
deriving DecidableEq, Repr

/-- Outcome oracle for one image-encode call (main.go:232-245): encoded bytes
on success, or the prefix left in the staging file on failure. -/
inductive EncRes
  | ok (b : Bytes)
  | fail (p : Bytes)
deriving DecidableEq, Repr

/-- Point update of a file map. -/
def fsSet (fs : String → Option Bytes) (p : String) (c : Option Bytes) :
    String → Option Bytes :=
  fun q => if q = p then c else fs q

/-- File-system state plus failure oracles for the fallible primitives the
program uses.  `renameFail i` decides the fate of the i-th `os.Rename`
attempt; `nowUnix` is `time.Now().Unix()`. -/
structure World where
  fs : String → Option Bytes
  copyRes : String → String → CopyRes
  renameFail : Nat → Bool
  nowUnix : Nat
  openFail : String → Bool
  decodeOk : Bytes → Bool
  createFail : String → Bool
  encodeRes : String → Bytes → EncRes

/-- `copyFile src dst` (main.go:360-373): open `src`, create `dst` (truncating
it), stream the bytes across; the Boolean result is `true` on success. -/
def copyFile (w : World) (src dst : String) : World × Bool :=
  match w.fs src with
  | none => (w, false)
  | some c =>
    match w.copyRes src dst with
    | CopyRes.ok => ({ w with fs := fsSet w.fs dst (some c) }, true)
    | CopyRes.failNoWrite => (w, false)
    | CopyRes.failPart p => ({ w with fs := fsSet w.fs dst (some p) }, false)

/-- `os.Rename src dst` at attempt index `i`: fails when the source is absent
or when the oracle says so; on success the file moves atomically. -/
def renameOp (w : World) (src dst : String) (i : Nat) : World × Bool :=
  match w.fs src with
  | none => (w, false)
  | some c =>
    if w.renameFail i then (w, false)
    else ({ w with fs := fsSet (fsSet w.fs dst (some c)) src none }, true)

/-- Backup path chosen by `replaceOriginal` (main.go:332-335): `orig + ".bak"`,
or `orig + "." + unixTime + ".bak"` when a file already exists at the former. -/
def bakPath (w : World) (orig : String) : String :=
  if (w.fs (orig ++ ".bak")).isSome then orig ++ "." ++ toString w.nowUnix ++ ".bak"
  else orig ++ ".bak"

/-- Replace loop of `replaceOriginal` (main.go:342-357): try `os.Rename` twice
(sleeping between the attempts), then fall back to copying the staged bytes
over the original and removing the staged file; a copy failure is returned as
an error with the staged file left in place. -/
def replaceStep (w : World) (orig tmp : String) : World × Except String Unit :=
  let r0 := renameOp w tmp orig 0
  if r0.2 then (r0.1, Except.ok ())
  else
    let r1 := renameOp r0.1 tmp orig 1
    if r1.2 then (r1.1, Except.ok ())
    else
      let cp := copyFile r1.1 tmp orig
      if cp.2 then ({ cp.1 with fs := fsSet cp.1.fs tmp none }, Except.ok ())
      else (cp.1, Except.error "replace original failed")

/-- Modelled from the spec: the explicit replace state machine
{AttemptAtomicMove, RetryOnce, FallbackCopy, Failed} the claim describes, for
a staged file holding `c`.  Either rename attempt succeeding moves the staged
file onto the original; otherwise the fallback copies the staged content over
the original and removes the staged file; on total failure the staged file is
left in place and an error is returned. -/
def replaceStepSpec (w : World) (orig tmp : String) (c : Bytes) :
    World × Except String Unit :=
  if w.renameFail 0 = false ∨ w.renameFail 1 = false then
    ({ w with fs := fsSet (fsSet w.fs orig (some c)) tmp none }, Except.ok ())
  else
    match w.copyRes tmp orig with
    | CopyRes.ok =>
        ({ w with fs := fsSet (fsSet w.fs orig (some c)) tmp none }, Except.ok ())
    | CopyRes.failNoWrite => (w, Except.error "replace original failed")
    | CopyRes.failPart p =>
        ({ w with fs := fsSet w.fs orig (some p) }, Except.error "replace original failed")

/-- `replaceOriginal` (main.go:330-358): when backup is enabled, first copy the
original to the backup path (aborting on failure), then run the replace loop. -/
def replaceOriginal (backup : Bool) (w : World) (orig tmp : String) :
    World × Except String Unit :=
  if backup then
    let bak := bakPath w orig
    let cp := copyFile w orig bak
    if cp.2 then replaceStep cp.1 orig tmp
    else (cp.1, Except.error "create backup failed")
  else replaceStep w orig tmp

/-- Extension switch inside `scrubImage` (main.go:232-245). -/
def isImageExt (ext : String) : Bool :=
  ext == ".jpg" || ext == ".jpeg" || ext == ".png"

/-- `scrubImage` (main.go:211-248): open the file, decode the image, create the
staging file `path + ".tmp"` (truncated to empty), re-encode into it, then
commit via `replaceOriginal`.  A decode/open/create failure returns before the
staging file holds anything; an encode failure returns with the partial
staging file left on disk (the code has no cleanup on that path). -/
def scrubImage (backup : Bool) (w : World) (path ext : String) :
    World × Except String Unit :=
  match w.fs path with
  | none => (w, Except.error "open failed")
  | some data =>
    if w.openFail path then (w, Except.error "open failed")
    else if !(w.decodeOk data) then (w, Except.error "image decode failed")
    else
      let tmp := path ++ ".tmp"
      if w.createFail tmp then (w, Except.error "create staging failed")
      else
        let w1 : World := { w with fs := fsSet w.fs tmp (some []) }
        if isImageExt ext then
          match w.encodeRes ext data with
          | EncRes.ok b =>
              replaceOriginal backup { w1 with fs := fsSet w1.fs tmp (some b) } path tmp
          | EncRes.fail p =>
              ({ w1 with fs := fsSet w1.fs tmp (some p) }, Except.error "encode failed")
        else (w1, Except.error "unknown image type")

/-- Extension class of Office OpenXML containers (main.go:29-31). -/
def openXMLSet : List String := [".docx", ".xlsx", ".pptx"]

/-- Extension class of OpenDocument containers (main.go:33-35). -/
def openDocSet : List String := [".odt", ".ods", ".odp"]

/-- Extension class of raster images (main.go:37-39). -/
def imageSet : List String := [".jpg", ".jpeg", ".png"]

/-- `isSupportedExt` (main.go:376-384). -/
def isSupportedExt (ext : String) : Bool :=
  if openXMLSet.contains ext || openDocSet.contains ext || imageSet.contains ext then true
  else if ext == ".pdf" then true
  else false

/-- Directory-walk filter body (main.go:91-99): include-list check first, then
exclude-list check, then the supported-extension test decides collection. -/
def walkKeep (inc exc : List String) (p : String) : Bool :=
  let ext := lowerStr (fileExt p)
  if inc.length > 0 && !(inc.contains (trimDot ext)) then false
  else if exc.contains (trimDot ext) then false
  else isSupportedExt ext

/-- Outcome of classifying the explicitly named single input path. -/
inductive SingleOutcome
  | fatalNotInclude
  | fatalExcluded
  | fatalUnsupported
  | accepted
deriving DecidableEq, Repr

/-- Single-file branch of `main` (main.go:106-118): the same include, exclude
and supported checks, but each rejection is a fatal error (`log.Fatalf`). -/
def classifySingle (inc exc : List String) (p : String) : SingleOutcome :=
  let ext := lowerStr (fileExt p)
  if inc.length > 0 && !(inc.contains (trimDot ext)) then SingleOutcome.fatalNotInclude
  else if exc.contains (trimDot ext) then SingleOutcome.fatalExcluded
  else if !(isSupportedExt ext) then SingleOutcome.fatalUnsupported
  else SingleOutcome.accepted

/-- Success test on a per-file scrub result (worker body, main.go:144-152). -/
def scrubResultOk (r : Except String Unit) : Bool :=
  match r with
  | Except.ok _ => true
  | Except.error _ => false

/-- Result of a modelled `main` invocation: the dry-run candidate listing, or
the final success/failure summary. -/
inductive MainResult
  | dryList (files : List String)
  | summary (ok fail : Nat)
deriving DecidableEq, Repr

/-- Effectful processing of every candidate (worker bodies, linearised):
each file's scrub transforms the world and yields one outcome. -/
def processAll (scrub : String → World → World × Except String Unit) :
    List String → World → Nat × Nat → World × (Nat × Nat)
  | [], w, acc => (w, acc)
  | f :: rest, w, acc =>
    let s := scrub f w
    if scrubResultOk s.2 then processAll scrub rest s.1 (acc.1 + 1, acc.2)
    else processAll scrub rest s.1 (acc.1, acc.2 + 1)

/-- Directory-mode `main` (main.go:83-162): collect the candidates by the walk
filter; in dry-run mode print them and return with no world change (main.go:
126-131); otherwise process every candidate and report the two counters. -/
def mainModel (dry : Bool) (inc exc : List String) (tree : List String)
    (scrub : String → World → World × Except String Unit) (w : World) :
    World × MainResult :=
  let files := tree.filter (walkKeep inc exc)
  if dry then (w, MainResult.dryList files)
  else
    let r := processAll scrub files w (0, 0)
    (r.1, MainResult.summary r.2.1 r.2.2)

/-- One shared-memory access of the unsynchronized counter update
`*ptr += delta` in `add` (main.go:405-408), split into its load and its
store as executed by two concurrent workers A and B. -/
inductive RaceStep
  | loadA
  | storeA
  | loadB
  | storeB
deriving DecidableEq, Repr

/-- Machine state for two workers racing on one counter: the shared memory
cell and each worker's private register. -/
structure RaceState where
  mem : Int
  regA : Int
  regB : Int
deriving DecidableEq, Repr

/-- Semantics of one access: `load` reads the shared cell into the worker's
register, `store` writes back register + 1, which is exactly the unguarded
read-modify-write `*ptr += 1` of `add` (main.go:407). -/
def raceStepFn (s : RaceState) : RaceStep → RaceState
  | RaceStep.loadA => { s with regA := s.mem }
  | RaceStep.storeA => { s with mem := s.regA + 1 }
  | RaceStep.loadB => { s with regB := s.mem }
  | RaceStep.storeB => { s with mem := s.regB + 1 }

/-- Run a schedule (interleaving) of counter accesses. -/
def runSchedule : RaceState → List RaceStep → RaceState
  | s, [] => s
  | s, st :: rest => runSchedule (raceStepFn s st) rest

/-- One shared-memory access performed by the batch accounting: the worker
body (main.go:143-153) calls `add(&okCount, 1)` or `add(&failCount, 1)`, and
`add` is the unsynchronized `*ptr += delta` (main.go:405-408), so each call is
a load of the shared counter followed by a store of register + 1; steps are
tagged with the worker (A or B) and the counter they touch. -/
inductive CtrStep
  | loadOkA
  | storeOkA
  | loadFailA
  | storeFailA
  | loadOkB
  | storeOkB
  | loadFailB
  | storeFailB
deriving DecidableEq, Repr

/-- Machine state for two workers updating the two shared counters `okCount`
and `failCount` (main.go:136-137), each worker with a private register holding
the value its last load read. -/
structure CtrState where
  okCount : Int
  failCount : Int
  regA : Int
  regB : Int
deriving DecidableEq, Repr

/-- Semantics of one counter access: a load reads the shared counter into the
worker's register, a store writes back register + 1 — the split
read-modify-write of `add`'s `*ptr += delta` (main.go:407). -/
def ctrStepFn (s : CtrState) : CtrStep → CtrState
  | CtrStep.loadOkA => { s with regA := s.okCount }
  | CtrStep.storeOkA => { s with okCount := s.regA + 1 }
  | CtrStep.loadFailA => { s with regA := s.failCount }
  | CtrStep.storeFailA => { s with failCount := s.regA + 1 }
  | CtrStep.loadOkB => { s with regB := s.okCount }
  | CtrStep.storeOkB => { s with okCount := s.regB + 1 }
  | CtrStep.loadFailB => { s with regB := s.failCount }
  | CtrStep.storeFailB => { s with failCount := s.regB + 1 }

/-- Run one interleaving (schedule) of the two workers' counter accesses. -/
def runCtrSchedule : CtrState → List CtrStep → CtrState
  | s, [] => s
  | s, st :: rest => runCtrSchedule (ctrStepFn s st) rest

/-- Counter-access trace of one worker draining its share of the jobs channel
(main.go:143-153): for each file, scrub it, then perform the load and the
store of `add` on the success counter if the scrub returned `nil`, on the
failure counter otherwise; `isA` tags which worker runs the loop. -/
def workerTrace (scrub : String → Except String Unit) (isA : Bool) :
    List String → List CtrStep
  | [] => []
  | f :: rest =>
    (if scrubResultOk (scrub f) then
        if isA then [CtrStep.loadOkA, CtrStep.storeOkA]
        else [CtrStep.loadOkB, CtrStep.storeOkB]
      else
        if isA then [CtrStep.loadFailA, CtrStep.storeFailA]
        else [CtrStep.loadFailB, CtrStep.storeFailB])
      ++ workerTrace scrub isA rest

/-- Decides whether `c` is a legal interleaving of the two traces `a` and `b`:
every step of `c` comes from the head of `a` or of `b`, preserving each
worker's program order. -/
def isInterleaving : List CtrStep → List CtrStep → List CtrStep → Bool
  | [], [], [] => true
  | _, _, [] => false
  | [], [], _ :: _ => false
  | [], b :: bs, c :: cs => b == c && isInterleaving [] bs cs
  | a :: as, [], c :: cs => a == c && isInterleaving as [] cs
  | a :: as, b :: bs, c :: cs =>
    (a == c && isInterleaving as (b :: bs) cs)
      || (b == c && isInterleaving (a :: as) bs cs)

/-- Toy codec for concrete evaluation: `compress` tags the content with a
leading byte, `decompress` drops the first byte.  As with real deflate,
decoding is not injective, so a stored payload need not be the canonical
output of the compressor. -/
def tagCodec : Codec where
  compress := fun _ b => 0 :: b
  decompress := fun _ b => b.tail

/-- Concrete content entry of an OpenXML archive. -/
def docEntry : ZipEntry :=
  { name := "word/document.xml", method := 8, mode := 420, modified := 5, raw := [1, 2] }

/-- Concrete properties entry of an OpenXML archive. -/
def propsEntry : ZipEntry :=
  { name := "docProps/core.xml", method := 8, mode := 420, modified := 5, raw := [3, 4] }

/-- Base world for concrete runs: empty file system, every primitive
succeeding. -/
def baseWorld : World where
  fs := fun _ => none
  copyRes := fun _ _ => CopyRes.ok
  renameFail := fun _ => false
  nowUnix := 0
  openFail := fun _ => false
  decodeOk := fun _ => true
  createFail := fun _ => false
  encodeRes := fun _ _ => EncRes.ok []

/-- World where the backup copy fails before writing anything. -/
def c3World : World :=
  { baseWorld with
    fs := fun p => if p = "a" then some [1] else none,
    copyRes := fun _ _ => CopyRes.failNoWrite }

/-- World holding the original `a`, a primary backup `a.bak`, a pre-existing
timestamped backup `a.0.bak`, and a staged file `a.tmp`. -/
def c4World : World :=
  { baseWorld with
    fs := fun p =>
      if p = "a" then some [1]
      else if p = "a.bak" then some [2]
      else if p = "a.0.bak" then some [3]
      else if p = "a.tmp" then some [9]
      else none }

/-- World where both rename attempts and the fallback copy fail while the
staged file `a.tmp` exists. -/
def c5World : World :=
  { baseWorld with
    fs := fun p => if p = "a.tmp" then some [9] else none,
    copyRes := fun _ _ => CopyRes.failNoWrite,
    renameFail := fun _ => true }

/-- World holding an image file `a.png`. -/
def imgWorld : World :=
  { baseWorld with fs := fun p => if p = "a.png" then some [1] else none }

/-- Image world whose open call fails. -/
def imgWorldOpenFail : World := { imgWorld with openFail := fun _ => true }

/-- Image world whose decode call fails. -/
def imgWorldDecodeFail : World := { imgWorld with decodeOk := fun _ => false }

/-- Image world whose staging-file creation fails. -/
def imgWorldCreateFail : World := { imgWorld with createFail := fun _ => true }

/-- Image world whose re-encode fails after writing a prefix. -/
def imgWorldEncodeFail : World := { imgWorld with encodeRes := fun _ _ => EncRes.fail [7] }

/-- Per-file scrubber with exactly one failing file (`bad.docx`), used for the
concrete two-worker batch run. -/
def oneBadScrub (f : String) : Except String Unit :=
  if f == "bad.docx" then Except.error "corrupted archive" else Except.ok ()

theorem fsSet_same (fs : String → Option Bytes) (p : String) (c : Option Bytes) :
    fsSet fs p c p = c := by
  simp [fsSet]

theorem fsSet_other (fs : String → Option Bytes) (p : String) (c : Option Bytes)
    (q : String) (h : q ≠ p) : fsSet fs p c q = fs q := by
  simp [fsSet, h]

theorem strAppend_ne_of_ne (s : String) {a b : String} (h : a ≠ b) :
    s ++ a ≠ s ++ b := by
  intro he
  apply h
  apply String.ext
  have hd := congrArg String.data he
  rw [String.data_append, String.data_append] at hd
  exact List.append_cancel_left hd

theorem strAppend_ne_self (s : String) {a : String} (h : a.length ≠ 0) :
    s ++ a ≠ s := by
  intro he
  apply h
  have hl := congrArg String.length he
  rw [String.length_append] at hl
  omega

theorem bak_ne_orig (orig : String) : orig ++ ".bak" ≠ orig :=
  strAppend_ne_self orig (by decide)

theorem tmp_ne_orig (orig : String) : orig ++ ".tmp" ≠ orig :=
  strAppend_ne_self orig (by decide)

theorem bak_ne_tmp (orig : String) : orig ++ ".bak" ≠ orig ++ ".tmp" :=
  strAppend_ne_of_ne orig (by decide)

theorem tsBak_ne_orig (orig t : String) : orig ++ "." ++ t ++ ".bak" ≠ orig := by
  intro he
  have hl := congrArg String.length he
  rw [String.length_append, String.length_append, String.length_append] at hl
  have h1 : String.length "." = 1 := by decide
  have h2 : String.length ".bak" = 4 := by decide
  omega

theorem tsBak_ne_tmp (orig t : String) :
    orig ++ "." ++ t ++ ".bak" ≠ orig ++ ".tmp" := by
  intro he
  have hl := congrArg String.length he
  rw [String.length_append, String.length_append, String.length_append,
    String.length_append] at hl
  have h1 : String.length "." = 1 := by decide
  have h2 : String.length ".bak" = 4 := by decide
  have h3 : String.length ".tmp" = 4 := by decide
  omega

theorem tsBak_ne_bak (orig t : String) :
    orig ++ "." ++ t ++ ".bak" ≠ orig ++ ".bak" := by
  intro he
  have hl := congrArg String.length he
  rw [String.length_append, String.length_append, String.length_append,
    String.length_append] at hl
  have h1 : String.length "." = 1 := by decide
  have h2 : String.length ".bak" = 4 := by decide
  omega

theorem bakPath_ne_orig (w : World) (orig : String) : bakPath w orig ≠ orig := by
  unfold bakPath
  by_cases h : (w.fs (orig ++ ".bak")).isSome <;> simp [h, tsBak_ne_orig, bak_ne_orig]

theorem bakPath_ne_tmp (w : World) (orig : String) :
    bakPath w orig ≠ orig ++ ".tmp" := by
  unfold bakPath
  by_cases h : (w.fs (orig ++ ".bak")).isSome <;> simp [h, tsBak_ne_tmp, bak_ne_tmp]

theorem copyFile_frame (w : World) (src dst q : String) (h : q ≠ dst) :
    ((copyFile w src dst).1).fs q = w.fs q := by
  unfold copyFile
  cases hs : w.fs src with
  | none => rfl
  | some c =>
    cases hc : w.copyRes src dst <;> simp [fsSet_other _ _ _ _ h]

theorem renameOp_frame (w : World) (src dst : String) (i : Nat) (q : String)
    (h1 : q ≠ dst) (h2 : q ≠ src) :
    ((renameOp w src dst i).1).fs q = w.fs q := by
  unfold renameOp
  cases hs : w.fs src with
  | none => rfl
  | some c =>
    by_cases hr : w.renameFail i <;>
      simp [hr, fsSet_other _ _ _ _ h1, fsSet_other _ _ _ _ h2]

theorem replaceStep_frame (w : World) (orig tmp q : String)
    (h1 : q ≠ orig) (h2 : q ≠ tmp) :
    ((replaceStep w orig tmp).1).fs q = w.fs q := by
  unfold replaceStep
  by_cases hr0 : (renameOp w tmp orig 0).2
  · simp only [hr0, if_true]
    exact renameOp_frame w tmp orig 0 q h1 h2
  · simp only [hr0, if_false, Bool.false_eq_true]
    by_cases hr1 : (renameOp (renameOp w tmp orig 0).1 tmp orig 1).2
    · simp only [hr1, if_true]
      rw [renameOp_frame _ tmp orig 1 q h1 h2, renameOp_frame _ tmp orig 0 q h1 h2]
    · simp only [hr1, if_false, Bool.false_eq_true]
      by_cases hcp : (copyFile (renameOp (renameOp w tmp orig 0).1 tmp orig 1).1 tmp orig).2
      · simp only [hcp, if_true]
        rw [fsSet_other _ _ _ _ h2, copyFile_frame _ tmp orig q h1,
          renameOp_frame _ tmp orig 1 q h1 h2, renameOp_frame _ tmp orig 0 q h1 h2]
      · simp only [hcp, if_false, Bool.false_eq_true]
        rw [copyFile_frame _ tmp orig q h1,
          renameOp_frame _ tmp orig 1 q h1 h2, renameOp_frame _ tmp orig 0 q h1 h2]

theorem replaceOriginal_frame (b : Bool) (w : World) (orig tmp q : String)
    (h0 : q ≠ bakPath w orig) (h1 : q ≠ orig) (h2 : q ≠ tmp) :
    ((replaceOriginal b w orig tmp).1).fs q = w.fs q := by
  unfold replaceOriginal
  cases b with
  | false => simpa using replaceStep_frame w orig tmp q h1 h2
  | true =>
    simp only [if_true]
    by_cases hcp : (copyFile w orig (bakPath w orig)).2
    · simp only [hcp, if_true]
      rw [replaceStep_frame _ orig tmp q h1 h2, copyFile_frame _ orig _ q h0]
    · simp only [hcp, if_false, Bool.false_eq_true]
      exact copyFile_frame _ orig _ q h0

/-- C3: when backup is enabled and the copy of the original to the backup path
fails, `replaceOriginal` returns an error before any destructive step: both the
original path and the staged temporary file are byte-for-byte unchanged. -/
theorem backup_failure_aborts_commit (w : World) (orig : String)
    (hfail : (copyFile w orig (bakPath w orig)).2 = false) :
    (replaceOriginal true w orig (orig ++ ".tmp")).2 = Except.error "create backup failed"
    ∧ ((replaceOriginal true w orig (orig ++ ".tmp")).1).fs orig = w.fs orig
    ∧ ((replaceOriginal true w orig (orig ++ ".tmp")).1).fs (orig ++ ".tmp")
        = w.fs (orig ++ ".tmp") := by
  refine ⟨?_, ?_, ?_⟩
  · simp [replaceOriginal, hfail]
  · simp only [replaceOriginal, hfail, if_true, if_false, Bool.false_eq_true]
    exact copyFile_frame w orig _ orig (bakPath_ne_orig w orig).symm
  · simp only [replaceOriginal, hfail, if_true, if_false, Bool.false_eq_true]
    exact copyFile_frame w orig _ _ (bakPath_ne_tmp w orig).symm

/-- C3 witness: a concrete world where the backup copy fails; the commit
aborts with the original and staged file untouched. -/
theorem backup_failure_aborts_commit_witness :
    (replaceOriginal true c3World "a" ("a" ++ ".tmp")).2 = Except.error "create backup failed"
    ∧ ((replaceOriginal true c3World "a" ("a" ++ ".tmp")).1).fs "a" = c3World.fs "a"
    ∧ ((replaceOriginal true c3World "a" ("a" ++ ".tmp")).1).fs ("a" ++ ".tmp")
        = c3World.fs ("a" ++ ".tmp") :=
  backup_failure_aborts_commit c3World "a" (by decide)

/-- C4 counterexample: the code checks only the first candidate `orig + ".bak"`
for existence; the timestamped second candidate is written unconditionally.
In `c4World` a backup already exists at `a.0.bak` with content `[3]`; the
commit overwrites it with the original's content `[1]` and still succeeds,
so a pre-existing backup file IS overwritten by the commit. -/
theorem backup_timestamped_overwrite_counterexample :
    c4World.fs "a.0.bak" = some [3]
    ∧ ((replaceOriginal true c4World "a" "a.tmp").1).fs "a.0.bak" = some [1]
    ∧ (replaceOriginal true c4World "a" "a.tmp").2 = Except.ok ()
    ∧ some ([1] : Bytes) ≠ some [3] :=
  ⟨rfl, rfl, rfl, by decide⟩

/-- C4 as amended: the backup goes to `orig + ".bak"`; when a file already
exists at that exact path the time-based candidate
`orig + "." + unixTime + ".bak"` is used instead, and in that case the
pre-existing file at `orig + ".bak"` is never overwritten by the commit
(the timestamped candidate itself is not checked for existence and may be
overwritten, as the counterexample shows). -/
theorem backup_path_selection (w : World) (orig : String)
    (hex : (w.fs (orig ++ ".bak")).isSome = true) :
    bakPath w orig = orig ++ "." ++ toString w.nowUnix ++ ".bak"
    ∧ ((replaceOriginal true w orig (orig ++ ".tmp")).1).fs (orig ++ ".bak")
        = w.fs (orig ++ ".bak") := by
  have hb : bakPath w orig = orig ++ "." ++ toString w.nowUnix ++ ".bak" := by
    simp [bakPath, hex]
  refine ⟨hb, ?_⟩
  refine replaceOriginal_frame true w orig (orig ++ ".tmp") (orig ++ ".bak") ?_ ?_ ?_
  · rw [hb]; exact (tsBak_ne_bak orig (toString w.nowUnix)).symm
  · exact bak_ne_orig orig
  · exact bak_ne_tmp orig

/-- C4 witness: in `c4World` the primary backup path `a.bak` is occupied, the
timestamped candidate is selected, and the pre-existing `a.bak` is preserved
by the commit. -/
theorem backup_path_selection_witness :
    bakPath c4World "a" = "a" ++ "." ++ toString c4World.nowUnix ++ ".bak"
    ∧ ((replaceOriginal true c4World "a" ("a" ++ ".tmp")).1).fs ("a" ++ ".bak")
        = c4World.fs ("a" ++ ".bak") :=
  backup_path_selection c4World "a" (by decide)

/-- C5: given a staged file holding `c`, the replace loop of `replaceOriginal`
is exactly the state machine of the claim: attempt the atomic rename, on
failure retry exactly once more, on second failure fall back to copying the
staged content over the original and removing the staged temporary, and on
total failure return an error with the staged temporary left in place. -/
theorem replace_step_state_machine (w : World) (orig tmp : String) (c : Bytes)
    (hc : w.fs tmp = some c) :
    replaceStep w orig tmp = replaceStepSpec w orig tmp c := by
  cases h0 : w.renameFail 0 with
  | false =>
    simp [replaceStep, replaceStepSpec, renameOp, copyFile, hc, h0]
  | true =>
    cases h1 : w.renameFail 1 with
    | false =>
      simp [replaceStep, replaceStepSpec, renameOp, copyFile, hc, h0, h1]
    | true =>
      cases hcp : w.copyRes tmp orig <;>
        simp [replaceStep, replaceStepSpec, renameOp, copyFile, hc, h0, h1, hcp]

/-- C5 witness: in `c5World` both rename attempts and the fallback copy fail;
the loop follows the spec machine, returning an error with `a.tmp` intact. -/
theorem replace_step_state_machine_witness :
    replaceStep c5World "a" "a.tmp" = replaceStepSpec c5World "a" "a.tmp" [9] :=
  replace_step_state_machine c5World "a" "a.tmp" [9] (by decide)

/-- C1 counterexample: the claim asserts the rewrite copies entries with "no
recompression", i.e. the stored payload stays the one of the source.  The code
instead decompresses each kept entry (`zf.Open`) and compresses the content
again (`zw.CreateHeader` + `io.Copy`).  Since decoding is not injective, a
valid source payload need not be the compressor's canonical output: here the
kept entry's stored payload changes from `[1, 2]` to `[0, 2]` even though its
decompressed content is unchanged. -/
theorem rewriteZip_recompresses_counterexample :
    (rewriteZipEntries tagCodec (fun _ => true) [docEntry]).map ZipEntry.raw = [[0, 2]]
    ∧ [docEntry].map ZipEntry.raw = [[1, 2]]
    ∧ tagCodec.decompress 8 [0, 2] = tagCodec.decompress 8 [1, 2]
    ∧ ([[0, 2]] : List Bytes) ≠ [[1, 2]] := by
  refine ⟨rfl, rfl, rfl, by decide⟩

/-- C1 as amended: for a round-tripping codec, the rewritten archive's entries
are exactly the source entries accepted by the keep predicate, in the source's
original directory order, each with the same name, declared compression
method, file-mode bits, modification timestamp and byte-identical decompressed
content; the content is however re-encoded with the declared method, so the
stored compressed bytes are not necessarily those of the source. -/
theorem rewriteZip_keeps_filtered_entries (c : Codec) (keep : String → Bool)
    (entries : List ZipEntry)
    (hrt : ∀ m b, c.decompress m (c.compress m b) = b) :
    (rewriteZipEntries c keep entries).map (entryView c)
      = (entries.filter (fun e => keep e.name)).map (entryView c) := by
  induction entries with
  | nil => rfl
  | cons e rest ih =>
    cases hk : keep e.name <;>
      simp [rewriteZipEntries, hk, List.filter_cons, entryView, hrt, ih]

/-- C1 witness: rewriting a concrete two-entry OpenXML archive with the
`docProps/` predicate keeps exactly the content entry, attributes and
decompressed content intact. -/
theorem rewriteZip_keeps_filtered_entries_witness :
    (rewriteZipEntries tagCodec scrubOpenXMLKeep [propsEntry, docEntry]).map (entryView tagCodec)
      = ([propsEntry, docEntry].filter (fun e => scrubOpenXMLKeep e.name)).map (entryView tagCodec) :=
  rewriteZip_keeps_filtered_entries tagCodec scrubOpenXMLKeep [propsEntry, docEntry]
    (fun _ _ => rfl)

/-- C2: the OpenXML predicate keeps a name exactly when its case-insensitive
form does not start with `docProps/`, and the OpenDocument predicate keeps a
name exactly when its case-insensitive form is not `meta.xml`; a nested
`.../meta.xml` and the manifest are kept, every entry under `docProps/` is
dropped. -/
theorem scrub_predicates_characterization (name : String) :
    (scrubOpenXMLKeep name = true
      ↔ strStartsWith (lowerStr name) (lowerStr "docProps/") = false)
    ∧ (scrubOpenDocumentKeep name = true ↔ lowerStr name ≠ lowerStr "meta.xml")
    ∧ scrubOpenDocumentKeep "content/meta.xml" = true
    ∧ scrubOpenDocumentKeep "META-INF/manifest.xml" = true
    ∧ scrubOpenXMLKeep "DocProps/custom.xml" = false := by
  refine ⟨?_, ?_, by decide, by decide, by decide⟩
  · have h : lowerStr "docProps/" = "docprops/" := by decide
    rw [h]
    unfold scrubOpenXMLKeep
    cases hs : strStartsWith (lowerStr name) "docprops/" <;> simp [hs]
  · have h : lowerStr "meta.xml" = "meta.xml" := by decide
    rw [h]
    unfold scrubOpenDocumentKeep
    cases hs : lowerStr name == "meta.xml" <;>
      simp only [hs, if_true, if_false, Bool.false_eq_true] <;>
        simp [beq_iff_eq] at hs ⊢ <;> simp [hs]

/-- C7: the shared counters are NOT updated with synchronization: `add`
performs a plain `*ptr += delta` (main.go:405-408, with a comment waiving
atomicity).  Splitting that read-modify-write into its load and store shows a
legal interleaving of two concurrent increments from 0 that ends at 1, losing
an update, whereas the two sequentialized orders end at 2. -/
theorem counter_race_lost_update :
    (runSchedule { mem := 0, regA := 0, regB := 0 }
        [RaceStep.loadA, RaceStep.storeA, RaceStep.loadB, RaceStep.storeB]).mem = 2
    ∧ (runSchedule { mem := 0, regA := 0, regB := 0 }
        [RaceStep.loadA, RaceStep.loadB, RaceStep.storeA, RaceStep.storeB]).mem = 1
    ∧ (1 : Int) ≠ 2 := by
  refine ⟨rfl, rfl, by decide⟩

/-- C6: the pipeline does NOT reliably report exactly N-1 successes and 1
failure: the aggregate counters are updated through the unsynchronized `add`
(main.go:405-408) by concurrent workers.  For the concrete batch of three
files of which exactly `bad.docx` fails (true outcome counts 2 successes,
1 failure), the two workers' counter-access traces admit a legal interleaving
of the split read-modify-writes under which the run ends with `okCount = 1`
and `failCount = 1`, losing a success — worker B's failure is still converted
into one failure outcome and does not stop B from scrubbing its next file,
but the reported success count is 1, not the claimed N-1 = 2. -/
theorem pipeline_racy_counts_on_one_failure :
    workerTrace oneBadScrub true ["a.docx"] = [CtrStep.loadOkA, CtrStep.storeOkA]
    ∧ workerTrace oneBadScrub false ["bad.docx", "c.odt"]
        = [CtrStep.loadFailB, CtrStep.storeFailB, CtrStep.loadOkB, CtrStep.storeOkB]
    ∧ isInterleaving (workerTrace oneBadScrub true ["a.docx"])
        (workerTrace oneBadScrub false ["bad.docx", "c.odt"])
        [CtrStep.loadFailB, CtrStep.storeFailB, CtrStep.loadOkA, CtrStep.loadOkB,
          CtrStep.storeOkA, CtrStep.storeOkB] = true
    ∧ (runCtrSchedule { okCount := 0, failCount := 0, regA := 0, regB := 0 }
        [CtrStep.loadFailB, CtrStep.storeFailB, CtrStep.loadOkA, CtrStep.loadOkB,
          CtrStep.storeOkA, CtrStep.storeOkB]).okCount = 1
    ∧ (runCtrSchedule { okCount := 0, failCount := 0, regA := 0, regB := 0 }
        [CtrStep.loadFailB, CtrStep.storeFailB, CtrStep.loadOkA, CtrStep.loadOkB,
          CtrStep.storeOkA, CtrStep.storeOkB]).failCount = 1
    ∧ (["a.docx", "bad.docx", "c.odt"].filter
        (fun f => scrubResultOk (oneBadScrub f))).length = 2
    ∧ (1 : Int) ≠ 2 := by
  decide

/-- C8: a dry-run invocation leaves the world (file system) exactly as it was,
returns precisely the candidate list the walk filter selects, and its output
does not depend on the rest of the world state, so repeated dry-run
invocations on an unchanged tree produce identical output. -/
theorem dry_run_purity (inc exc tree : List String)
    (scrub : String → World → World × Except String Unit) (w w' : World) :
    (mainModel true inc exc tree scrub w).1 = w
    ∧ (mainModel true inc exc tree scrub w).2
        = MainResult.dryList (tree.filter (walkKeep inc exc))
    ∧ (mainModel true inc exc tree scrub w).2 = (mainModel true inc exc tree scrub w').2 :=
  ⟨rfl, rfl, rfl⟩

/-- C9: classification precedence.  The walk filter keeps a path exactly when
the include set is empty or holds its extension, the exclude set does not hold
it, and the extension is supported; the single-file classifier accepts exactly
the same paths, and its three fatal outcomes are characterized by the same
precedence: include-miss first, then exclusion (regardless of the include
set's contents), and an unrecognized extension, which is a silent skip in the
walk but a hard error for the explicitly named single input. -/
theorem classifier_precedence (inc exc : List String) (p : String) :
    (walkKeep inc exc p = true
      ↔ ((inc = [] ∨ inc.contains (trimDot (lowerStr (fileExt p))) = true)
          ∧ exc.contains (trimDot (lowerStr (fileExt p))) = false
          ∧ isSupportedExt (lowerStr (fileExt p)) = true))
    ∧ (classifySingle inc exc p = SingleOutcome.accepted ↔ walkKeep inc exc p = true)
    ∧ (classifySingle inc exc p = SingleOutcome.fatalNotInclude
        ↔ (inc ≠ [] ∧ inc.contains (trimDot (lowerStr (fileExt p))) = false))
    ∧ (classifySingle inc exc p = SingleOutcome.fatalExcluded
        ↔ ((inc = [] ∨ inc.contains (trimDot (lowerStr (fileExt p))) = true)
            ∧ exc.contains (trimDot (lowerStr (fileExt p))) = true))
    ∧ (classifySingle inc exc p = SingleOutcome.fatalUnsupported
        ↔ ((inc = [] ∨ inc.contains (trimDot (lowerStr (fileExt p))) = true)
            ∧ exc.contains (trimDot (lowerStr (fileExt p))) = false
            ∧ isSupportedExt (lowerStr (fileExt p)) = false)) := by
  by_cases hinc : inc = []
  · subst hinc
    by_cases hexc : trimDot (lowerStr (fileExt p)) ∈ exc <;>
      cases hsup : isSupportedExt (lowerStr (fileExt p)) <;>
        simp [walkKeep, classifySingle, hexc, hsup]
  · have hlen : 0 < inc.length := by
      cases inc with
      | nil => exact absurd rfl hinc
      | cons x xs => simp
    by_cases hmem : trimDot (lowerStr (fileExt p)) ∈ inc <;>
      by_cases hexc : trimDot (lowerStr (fileExt p)) ∈ exc <;>
        cases hsup : isSupportedExt (lowerStr (fileExt p)) <;>
          simp [walkKeep, classifySingle, hinc, hlen, hmem, hexc, hsup]

/-- C10: every failure of `scrubImage` before the commit step returns an error
with the original path byte-for-byte unchanged: an open failure, a decode
failure and a staging-file creation failure leave the whole world untouched,
while a re-encode failure leaves the original intact but leaves the partially
written staging file at `path + ".tmp"` on disk rather than removing it. -/
theorem scrubImage_precommit_failures (bk : Bool) (w : World) (path ext : String) :
    (w.fs path = none →
      scrubImage bk w path ext = (w, Except.error "open failed"))
    ∧ (∀ d, w.fs path = some d → w.openFail path = true →
        scrubImage bk w path ext = (w, Except.error "open failed"))
    ∧ (∀ d, w.fs path = some d → w.openFail path = false → w.decodeOk d = false →
        scrubImage bk w path ext = (w, Except.error "image decode failed"))
    ∧ (∀ d, w.fs path = some d → w.openFail path = false → w.decodeOk d = true →
        w.createFail (path ++ ".tmp") = true →
        scrubImage bk w path ext = (w, Except.error "create staging failed"))
    ∧ (∀ d q, w.fs path = some d → w.openFail path = false → w.decodeOk d = true →
        w.createFail (path ++ ".tmp") = false → isImageExt ext = true →
        w.encodeRes ext d = EncRes.fail q →
        (scrubImage bk w path ext).2 = Except.error "encode failed"
        ∧ ((scrubImage bk w path ext).1).fs path = w.fs path
        ∧ ((scrubImage bk w path ext).1).fs (path ++ ".tmp") = some q) := by
  refine ⟨?_, ?_, ?_, ?_, ?_⟩
  · intro h
    simp [scrubImage, h]
  · intro d hd ho
    simp [scrubImage, hd, ho]
  · intro d hd ho hdec
    simp [scrubImage, hd, ho, hdec]
  · intro d hd ho hdec hcr
    simp [scrubImage, hd, ho, hdec, hcr]
  · intro d q hd ho hdec hcr himg henc
    have hne : path ≠ path ++ ".tmp" := (tmp_ne_orig path).symm
    refine ⟨?_, ?_, ?_⟩ <;>
      simp [scrubImage, hd, ho, hdec, hcr, himg, henc,
        fsSet_other _ _ _ _ hne, fsSet_same]

/-- C10 witness: the four pre-commit failure modes evaluated on concrete image
worlds holding `a.png`: open, decode and create failures leave everything
unchanged; an encode failure leaves `a.png` intact and the partial staging
file `a.png.tmp` on disk. -/
theorem scrubImage_precommit_failures_witness :
    scrubImage true baseWorld "a.png" ".png" = (baseWorld, Except.error "open failed")
    ∧ scrubImage true imgWorldOpenFail "a.png" ".png"
        = (imgWorldOpenFail, Except.error "open failed")
    ∧ scrubImage true imgWorldDecodeFail "a.png" ".png"
        = (imgWorldDecodeFail, Except.error "image decode failed")
    ∧ scrubImage true imgWorldCreateFail "a.png" ".png"
        = (imgWorldCreateFail, Except.error "create staging failed")
    ∧ (scrubImage true imgWorldEncodeFail "a.png" ".png").2 = Except.error "encode failed"
    ∧ ((scrubImage true imgWorldEncodeFail "a.png" ".png").1).fs "a.png"
        = imgWorldEncodeFail.fs "a.png"
    ∧ ((scrubImage true imgWorldEncodeFail "a.png" ".png").1).fs ("a.png" ++ ".tmp")
        = some [7] := by
  have h5 := (scrubImage_precommit_failures true imgWorldEncodeFail "a.png" ".png").2.2.2.2
    [1] [7] (by decide) rfl rfl rfl rfl rfl
  exact ⟨(scrubImage_precommit_failures true baseWorld "a.png" ".png").1 rfl,
    (scrubImage_precommit_failures true imgWorldOpenFail "a.png" ".png").2.1 [1]
      (by decide) rfl,
    (scrubImage_precommit_failures true imgWorldDecodeFail "a.png" ".png").2.2.1 [1]
      (by decide) rfl rfl,
    (scrubImage_precommit_failures true imgWorldCreateFail "a.png" ".png").2.2.2.1 [1]
      (by decide) rfl rfl rfl,
    h5.1, h5.2.1, h5.2.2⟩
